import Mathlib

/-!
Shallow embedding of the pyusbtin repository (package usbtin): the frame
codec of src/usbtin/protocol.py, the reader/dispatcher and transactor of
src/usbtin/threaded.py, and the CAN receive used by src/usbtin/cli.py.
Wire buffers are lists of byte values (Nat below 256). Relevant byte
codes: t=116 T=84 r=114 R=82 z=122 Z=90 v=118 V=86 N=78 F=70 G=71 W=87
O=79 L=76 l=108 C=67 S=83 Z=90 m=109 M=77 zero=48 CR=13 BEL=7.
-/

/-- Lowercase hex digit character code, as produced by the Python format
specifier x: 0 to 9 map to 48 to 57, 10 to 15 map to 97 to 102. -/
def hexDigitLower (d : Nat) : Nat := if d < 10 then 48 + d else 87 + d

/-- Uppercase hex digit character code, as produced by the Python format
specifier X. -/
def hexDigitUpper (d : Nat) : Nat := if d < 10 then 48 + d else 55 + d

/-- Value of one hex digit character, as accepted by Python int(s, 16):
decimal digits, lowercase and uppercase letters a to f. -/
def hexDigitVal (c : Nat) : Option Nat :=
  if 48 ≤ c ∧ c ≤ 57 then some (c - 48)
  else if 97 ≤ c ∧ c ≤ 102 then some (c - 87)
  else if 65 ≤ c ∧ c ≤ 70 then some (c - 55)
  else none

/-- Accumulating left-to-right decoder of a hex digit string; fails on the
first character that is not a hex digit. -/
def decodeHexCore (acc : Nat) : List Nat → Option Nat
  | [] => some acc
  | c :: rest =>
    match hexDigitVal c with
    | none => none
    | some v => decodeHexCore (16 * acc + v) rest

/-- decode_hex: int(raw, 16) on an ASCII byte string. The util module the
sources import is not in the tree, but the identical function appears in
src/usbtin/__init__.py lines 6 to 7. Fails on an empty string and on any
non hex digit character. -/
def decode_hex (l : List Nat) : Option Nat :=
  if l.isEmpty then none else decodeHexCore 0 l

/-- Little-endian base 16 digit list of n, always at least one digit, by
fuel recursion (fuel n+1 always suffices, since n is divided by 16 at
every step). -/
def hexRevDigits : Nat → Nat → List Nat
  | 0, _ => []
  | fuel + 1, n => if n < 16 then [n] else n % 16 :: hexRevDigits fuel (n / 16)

/-- The base 16 digits of n, least significant first. -/
def natToHexRevDigits (n : Nat) : List Nat := hexRevDigits (n + 1) n

/-- Python format 0wx (lowercase hex, left padded with the zero character
to width w): all hex digits of n, most significant first, preceded by
padding zeros when fewer than w digits. -/
def pyHexLower (w n : Nat) : List Nat :=
  let ds := (natToHexRevDigits n).reverse.map hexDigitLower
  List.replicate (w - ds.length) 48 ++ ds

/-- Python format 0wX, uppercase variant of pyHexLower. -/
def pyHexUpper (w n : Nat) : List Nat :=
  let ds := (natToHexRevDigits n).reverse.map hexDigitUpper
  List.replicate (w - ds.length) 48 ++ ds

/-- encode_hex: Python format 02X (matches src/usbtin/__init__.py lines 10
to 11; the util module itself is absent from the tree). -/
def encode_hex (n : Nat) : List Nat := pyHexUpper 2 n

/-- binascii.hexlify: two lowercase hex digits per byte. -/
def hexlify : List Nat → List Nat
  | [] => []
  | b :: rest => pyHexLower 2 b ++ hexlify rest

/-- The parsed device messages of src/usbtin/protocol.py, one constructor
per concrete message class. canMsg carries the frame of CANMessage and
CANExtendedMessage (extended false and true); canRequestMsg corresponds to
CANRequest and CANExtendedRequest. -/
inductive UMsg where
  | canMsg (extended : Bool) (ident : Nat) (data : List Nat)
  | canRequestMsg (extended : Bool) (ident : Nat) (dataLength : Nat)
  | okMsg
  | sendOkMsg
  | errorMsg
  | firmwareVersionMsg (major minor : Nat)
  | hardwareVersionMsg (major minor : Nat)
  | serialNumberMsg (serial : List Nat)
  | errorFlagsMsg (ewarn rxovr passive bus : Bool)
  | singleByteMsg (value : Nat)
deriving DecidableEq, Repr

/-- is_can class attribute: true exactly on _CANBaseMessage and
_CANBaseRequest subclasses (protocol.py lines 9, 120, 139). -/
def UMsg.is_can : UMsg → Bool
  | .canMsg _ _ _ => true
  | .canRequestMsg _ _ _ => true
  | _ => false

/-- is_ok class attribute: false exactly on the Error class (protocol.py
lines 8, 166). -/
def UMsg.is_ok : UMsg → Bool
  | .errorMsg => false
  | _ => true

/-- The kind of Python exception raised inside USBtinMessage.parse. Every
such exception is caught at protocol.py lines 41 to 42 and re-raised as
MessageParsingError (the ParseError of the spec), so an error result of
the embedded parse stands for a ParseError wrapping this inner kind. -/
inductive PyExc where
  | indexError
  | valueError
  | unicodeDecodeError
  | typeError
  | messageParsing
  | unknownMessageType
deriving DecidableEq, Repr

/-- IDENT_LEN: 8 for the extended classes, 3 for the standard ones
(protocol.py lines 96, 108, 150, 154). -/
def identLenOf (extended : Bool) : Nat := if extended then 8 else 3

/-- MAX_IDENT (protocol.py lines 97, 109). -/
def maxIdentOf (extended : Bool) : Nat := if extended then 0x1FFFFFFF else 0x7FF

/-- Decoding of consecutive two-character hex pairs, as done by the data
generator expression of _CANFrameBase.parse_from_msg (protocol.py lines 89
to 90); a non hex character raises ValueError. -/
def decodePairs : List Nat → Except PyExc (List Nat)
  | [] => .ok []
  | a :: b :: rest =>
    match decode_hex [a, b] with
    | none => .error .valueError
    | some v =>
      match decodePairs rest with
      | .error e => .error e
      | .ok vs => .ok (v :: vs)
  | [a] =>
    match decode_hex [a] with
    | none => .error .valueError
    | some v => .ok [v]

/-- _CANFrameBase.parse_from_msg plus the CANFrame constructor checks
(protocol.py lines 52 to 64 and 78 to 92): decode the identifier field,
decode the length digit, check the total message length (including the
trailing terminator byte), decode the payload pairs, then validate the
identifier and data length bounds of the constructor. -/
def parse_from_msg (extended : Bool) (msg : List Nat) : Except PyExc UMsg :=
  let identLen := identLenOf extended
  let offset := 2 + identLen
  match decode_hex ((msg.drop 1).take identLen) with
  | none => .error .valueError
  | some ident =>
    match decode_hex ((msg.drop (offset - 1)).take 1) with
    | none => .error .valueError
    | some msg_len =>
      if msg.length ≠ offset + msg_len * 2 + 1 then .error .messageParsing
      else
        match decodePairs ((msg.drop offset).take (msg_len * 2)) with
        | .error e => .error e
        | .ok data =>
          if maxIdentOf extended < ident then .error .valueError
          else if 8 < data.length then .error .valueError
          else .ok (.canMsg extended ident data)

/-- _CANBaseRequest.parse (protocol.py lines 141 to 146). The source
builds the result object r = cls() and then evaluates r[1:1+IDENT_LEN]
and r[1+IDENT_LEN], subscripting the freshly constructed message object
instead of the msg argument; message objects are not subscriptable, so
every call raises TypeError before reading any field of msg. -/
def canRequestParse (extended : Bool) (msg : List Nat) : Except PyExc UMsg :=
  .error .typeError

/-- VersionString.parse (protocol.py lines 170 to 176): major from byte
slice 1 to 3, minor from byte slice 3 to 5. -/
def versionStringParse (hardware : Bool) (buf : List Nat) : Except PyExc UMsg :=
  match decode_hex ((buf.drop 1).take 2) with
  | none => .error .valueError
  | some major =>
    match decode_hex ((buf.drop 3).take 2) with
    | none => .error .valueError
    | some minor =>
      .ok (if hardware then .hardwareVersionMsg major minor
           else .firmwareVersionMsg major minor)

/-- SerialNumber.parse (protocol.py lines 188 to 192): the remaining bytes
decoded as ASCII; a byte of 128 or more raises UnicodeDecodeError. -/
def serialNumberParse (buf : List Nat) : Except PyExc UMsg :=
  if (buf.drop 1).all (fun b => b < 128) then .ok (.serialNumberMsg (buf.drop 1))
  else .error .unicodeDecodeError

/-- ErrorFlags.parse (protocol.py lines 196 to 206): fl is the raw byte
buf[1] (the ASCII code of the first hex digit, not the hex-decoded flag
value), and the four booleans test bits 5, 4, 2 and 0 of that raw byte.
A buffer with no byte at index 1 raises IndexError. -/
def errorFlagsParse (buf : List Nat) : Except PyExc UMsg :=
  match buf.get? 1 with
  | none => .error .indexError
  | some fl =>
      .ok (.errorFlagsMsg (Nat.testBit fl 5) (Nat.testBit fl 4)
            (Nat.testBit fl 2) (Nat.testBit fl 0))

/-- SingleByte.parse (protocol.py lines 209 to 214): value from the hex
digit at byte slice 1 to 2. -/
def singleByteParse (buf : List Nat) : Except PyExc UMsg :=
  match decode_hex ((buf.drop 1).take 1) with
  | none => .error .valueError
  | some v => .ok (.singleByteMsg v)

/-- USBtinMessage.parse (protocol.py lines 11 to 42): dispatch on the
first byte, with exact-buffer cases for the ok, send-ok and error replies,
a three-byte fallback to SingleByte, and UnknownMessageTypeError
otherwise. On empty input buf[0] raises IndexError. Every exception is
wrapped as MessageParsingError, so an error result stands for a
ParseError wrapping the recorded inner kind. -/
def usbtinParse (buf : List Nat) : Except PyExc UMsg :=
  match buf with
  | [] => .error .indexError
  | c :: _ =>
    if c = 116 then parse_from_msg false buf
    else if c = 84 then parse_from_msg true buf
    else if c = 114 then canRequestParse false buf
    else if c = 82 then canRequestParse true buf
    else if buf = [122, 13] ∨ buf = [90, 13] then .ok .sendOkMsg
    else if buf = [13] then .ok .okMsg
    else if buf = [7] then .ok .errorMsg
    else if c = 118 then versionStringParse false buf
    else if c = 86 then versionStringParse true buf
    else if c = 78 then serialNumberParse buf
    else if c = 70 then errorFlagsParse buf
    else if buf.length = 3 then singleByteParse buf
    else .error .unknownMessageType

example : usbtinParse [13] = .ok .okMsg := rfl
example : usbtinParse [7] = .ok .errorMsg := rfl
example : usbtinParse [122, 13] = .ok .sendOkMsg := rfl
example : usbtinParse [] = .error .indexError := rfl
example :
    usbtinParse [116, 49, 50, 51, 51, 52, 52, 53, 53, 54, 54, 13]
      = .ok (.canMsg false 0x123 [0x44, 0x55, 0x66]) := rfl
example : usbtinParse [86, 48, 49, 48, 49] = .ok (.hardwareVersionMsg 1 1) := rfl
example : usbtinParse [114, 49, 50, 51, 51, 13] = .error .typeError := rfl
example : usbtinParse [48, 52, 13] = .ok (.singleByteMsg 4) := rfl
example :
    usbtinParse [70, 48, 49, 13] = .ok (.errorFlagsMsg true true false false) := rfl

theorem hexDigitVal_lower : ∀ d, d < 16 → hexDigitVal (hexDigitLower d) = some d := by
  decide

theorem decodeHexCore_append (xs ys : List Nat) (acc : Nat) :
    decodeHexCore acc (xs ++ ys)
      = (decodeHexCore acc xs).bind (fun m => decodeHexCore m ys) := by
  induction xs generalizing acc with
  | nil => rfl
  | cons c xs ih =>
    simp only [List.cons_append, decodeHexCore]
    cases hexDigitVal c with
    | none => rfl
    | some v => exact ih _

theorem decodeHexCore_replicate (k acc : Nat) :
    decodeHexCore acc (List.replicate k 48) = some (acc * 16 ^ k) := by
  induction k generalizing acc with
  | zero => simp [decodeHexCore]
  | succ j ih =>
    simp only [List.replicate_succ, decodeHexCore,
      show hexDigitVal 48 = some 0 from by decide]
    rw [ih]
    congr 1
    rw [pow_succ]
    ring

theorem hexRevDigits_fuel : ∀ (f1 f2 n : Nat), n < f1 → n < f2 →
    hexRevDigits f1 n = hexRevDigits f2 n := by
  intro f1
  induction f1 with
  | zero => intro f2 n h _; exact absurd h (Nat.not_lt_zero n)
  | succ g1 ih =>
    intro f2 n h1 h2
    cases f2 with
    | zero => exact absurd h2 (Nat.not_lt_zero n)
    | succ g2 =>
      simp only [hexRevDigits]
      by_cases hn : n < 16
      · simp [hn]
      · simp only [if_neg hn]
        have hdlt : n / 16 < n := Nat.div_lt_self (by omega) (by omega)
        rw [ih g2 (n / 16) (by omega) (by omega)]

theorem natToHexRevDigits_eq (n : Nat) :
    natToHexRevDigits n
      = if n < 16 then [n] else n % 16 :: natToHexRevDigits (n / 16) := by
  show hexRevDigits (n + 1) n = _
  simp only [hexRevDigits]
  by_cases hn : n < 16
  · simp [hn]
  · simp only [if_neg hn]
    have hdlt : n / 16 < n := Nat.div_lt_self (by omega) (by omega)
    rw [hexRevDigits_fuel n (n / 16 + 1) (n / 16) (by omega) (by omega)]
    rfl

theorem decodeHexCore_digits (n : Nat) : ∀ acc,
    decodeHexCore acc ((natToHexRevDigits n).reverse.map hexDigitLower)
      = some (acc * 16 ^ (natToHexRevDigits n).length + n) := by
  induction n using Nat.strong_induction_on with
  | _ n ih =>
    intro acc
    rw [natToHexRevDigits_eq]
    by_cases hn : n < 16
    · simp only [if_pos hn, List.reverse_singleton, List.map_cons, List.map_nil,
        List.length_singleton, decodeHexCore, hexDigitVal_lower n hn, pow_one]
      congr 1
      omega
    · have hdlt : n / 16 < n := Nat.div_lt_self (by omega) (by omega)
      simp only [if_neg hn, List.reverse_cons, List.map_append, List.map_cons,
        List.map_nil, List.length_cons]
      rw [decodeHexCore_append]
      rw [ih (n / 16) hdlt acc]
      simp only [Option.some_bind', decodeHexCore,
        hexDigitVal_lower (n % 16) (Nat.mod_lt n (by omega))]
      congr 1
      have hmod := Nat.div_add_mod n 16
      rw [pow_succ]
      calc 16 * (acc * 16 ^ (natToHexRevDigits (n / 16)).length + n / 16) + n % 16
          = acc * (16 ^ (natToHexRevDigits (n / 16)).length * 16)
            + (16 * (n / 16) + n % 16) := by ring
        _ = acc * (16 ^ (natToHexRevDigits (n / 16)).length * 16) + n := by
            rw [hmod]

theorem natToHexRevDigits_ne_nil (n : Nat) : natToHexRevDigits n ≠ [] := by
  rw [natToHexRevDigits_eq]
  by_cases hn : n < 16 <;> simp [hn]

theorem decode_hex_of_ne_nil (l : List Nat) (h : l ≠ []) :
    decode_hex l = decodeHexCore 0 l := by
  cases l with
  | nil => exact absurd rfl h
  | cons a t => rfl

theorem decode_pyHexLower (w n : Nat) : decode_hex (pyHexLower w n) = some n := by
  have hlen : ((natToHexRevDigits n).reverse.map hexDigitLower).length ≠ 0 := by
    simp only [List.length_map, List.length_reverse, ne_eq, List.length_eq_zero]
    exact natToHexRevDigits_ne_nil n
  have hne2 : pyHexLower w n ≠ [] := by
    simp only [pyHexLower]
    intro hc
    apply hlen
    have hlc := congrArg List.length hc
    simp only [List.length_append, List.length_nil] at hlc
    omega
  rw [decode_hex_of_ne_nil _ hne2]
  rw [show pyHexLower w n
      = List.replicate (w - ((natToHexRevDigits n).reverse.map hexDigitLower).length) 48
        ++ (natToHexRevDigits n).reverse.map hexDigitLower from rfl]
  rw [decodeHexCore_append, decodeHexCore_replicate, Option.some_bind',
    Nat.zero_mul, decodeHexCore_digits n]
  simp

theorem natToHexRevDigits_length_le : ∀ (w n : Nat), 0 < w → n < 16 ^ w →
    (natToHexRevDigits n).length ≤ w := by
  intro w
  induction w with
  | zero => intro n h; omega
  | succ v ih =>
    intro n _ hlt
    rw [natToHexRevDigits_eq]
    by_cases hn : n < 16
    · simp only [if_pos hn, List.length_singleton]
      omega
    · simp only [if_neg hn, List.length_cons]
      have hv : 0 < v := by
        rcases Nat.eq_zero_or_pos v with h0 | h0
        · subst h0; norm_num at hlt; omega
        · exact h0
      have hq : n / 16 < 16 ^ v := by
        rw [Nat.div_lt_iff_lt_mul (by omega)]
        calc n < 16 ^ (v + 1) := hlt
          _ = 16 ^ v * 16 := by rw [pow_succ]
      have := ih (n / 16) hv hq
      omega

theorem pyHexLower_length (w n : Nat) (hw : 0 < w) (hn : n < 16 ^ w) :
    (pyHexLower w n).length = w := by
  have h := natToHexRevDigits_length_le w n hw hn
  simp only [pyHexLower, List.length_append, List.length_replicate,
    List.length_map, List.length_reverse]
  omega

theorem decode_hex_single (d : Nat) (hd : d < 16) :
    decode_hex [hexDigitLower d] = some d := by
  simp [decode_hex, decodeHexCore, hexDigitVal_lower d hd]

theorem pyHexLower_one (d : Nat) (hd : d < 16) :
    pyHexLower 1 d = [hexDigitLower d] := by
  simp [pyHexLower, natToHexRevDigits_eq, hd]

theorem hexlify_length : ∀ (d : List Nat), (∀ b ∈ d, b < 256) →
    (hexlify d).length = 2 * d.length := by
  intro d
  induction d with
  | nil => intro _; rfl
  | cons b t ih =>
    intro h
    have hb : b < 256 := h b (List.mem_cons_self b t)
    have ht : ∀ x ∈ t, x < 256 := fun x hx => h x (List.mem_cons_of_mem b hx)
    have h2 : (pyHexLower 2 b).length = 2 :=
      pyHexLower_length 2 b (by omega) (by norm_num; omega)
    simp only [hexlify, List.length_append, List.length_cons, h2, ih ht]
    omega

theorem decodePairs_hexlify : ∀ (d : List Nat), (∀ b ∈ d, b < 256) →
    decodePairs (hexlify d) = .ok d := by
  intro d
  induction d with
  | nil => intro _; rfl
  | cons b t ih =>
    intro h
    have hb : b < 256 := h b (List.mem_cons_self b t)
    have ht : ∀ x ∈ t, x < 256 := fun x hx => h x (List.mem_cons_of_mem b hx)
    have h2 : (pyHexLower 2 b).length = 2 :=
      pyHexLower_length 2 b (by omega) (by norm_num; omega)
    obtain ⟨x, y, hxy⟩ := List.length_eq_two.mp h2
    have hdec : decode_hex [x, y] = some b := by
      rw [← hxy]; exact decode_pyHexLower 2 b
    show decodePairs (pyHexLower 2 b ++ hexlify t) = .ok (b :: t)
    rw [hxy]
    simp [decodePairs, hdec, ih ht]

/-- Exception kinds raised by the various Python double-underscore bytes
methods of the command classes (ValueError for a rejected baud preset,
NotImplementedError for an exact numeric baudrate, protocol.py lines 229
to 240). -/
inductive SerErr where
  | valueError
  | notImplementedError
deriving DecidableEq, Repr

/-- Argument accepted by SetBaudrate (protocol.py lines 222 to 240): a
string preset with the digits after the S (modelled by their numeric
value), or an exact integer baudrate. -/
inductive BaudrateArg where
  | preset (s : Nat)
  | exact (n : Nat)
deriving DecidableEq, Repr

/-- The command grammar of src/usbtin/protocol.py (USBtinCommand
subclasses), one constructor per concrete class; the two send-frame and
the two send-request classes are merged with an extended flag, mirroring
the shared base classes. setTimestamping models the SetTimestamping class
(protocol.py lines 308 to 315). -/
inductive UCmd where
  | setBaudrate (b : BaudrateArg)
  | get2515Register (register : Nat)
  | set2515Register (register value : Nat)
  | getHardwareVersion
  | getFirmwareVersion
  | getSerialNumber
  | openCANChannel
  | openListenChannel
  | openLoopbackChannel
  | closeCANChannel
  | readErrorFlags
  | setTimestamping (state : Bool)
  | setFilterMask (mask : Nat)
  | setFilterCode (code : Nat)
  | sendCANFrame (extended : Bool) (ident : Nat) (data : List Nat)
  | sendCANRequest (extended : Bool) (ident : Nat) (dataLen : Nat)
deriving DecidableEq, Repr

/-- Serialization of a send-frame command: the CMD byte (t or T), the
frame header (ident formatted 03x or 08x, data length formatted 1x), the
hexlified payload, and the CR terminator (_SendCANFrameBase together with
_CANFrameBase, protocol.py lines 66 to 70 and 344 to 345). -/
def sendCANFrameBytes (extended : Bool) (ident : Nat) (data : List Nat) : List Nat :=
  (if extended then 84 else 116)
    :: (pyHexLower (identLenOf extended) ident
        ++ (pyHexLower 1 data.length ++ (hexlify data ++ [13])))

/-- Serialization of a send-request command: MSG_TPL r03x-1x-CR or
R08x-1x-CR (protocol.py lines 379 to 392). -/
def sendCANRequestBytes (extended : Bool) (ident : Nat) (dataLen : Nat) : List Nat :=
  (if extended then 82 else 114)
    :: (pyHexLower (identLenOf extended) ident ++ (pyHexLower 1 dataLen ++ [13]))

/-- The bytes written for each command (the double-underscore bytes
methods of protocol.py). SetBaudrate with a string preset above 8 raises
ValueError, with an integer argument raises NotImplementedError; every
other command serializes unconditionally (field validity is enforced by
the Python constructors). -/
def serializeCmd : UCmd → Except SerErr (List Nat)
  | .setBaudrate (.preset s) =>
    if 8 < s then .error .valueError else .ok [83, 48 + s, 13]
  | .setBaudrate (.exact _) => .error .notImplementedError
  | .get2515Register register => .ok (71 :: (encode_hex register ++ [13]))
  | .set2515Register register value =>
    .ok (87 :: (encode_hex register ++ (encode_hex value ++ [13])))
  | .getHardwareVersion => .ok [86, 13]
  | .getFirmwareVersion => .ok [118, 13]
  | .getSerialNumber => .ok [78, 13]
  | .openCANChannel => .ok [79, 13]
  | .openListenChannel => .ok [76, 13]
  | .openLoopbackChannel => .ok [108, 13]
  | .closeCANChannel => .ok [67, 13]
  | .readErrorFlags => .ok [70, 13]
  | .setTimestamping state => .ok (if state then [90, 49, 13] else [90, 48, 13])
  | .setFilterMask mask => .ok (109 :: (pyHexUpper 8 mask ++ [13]))
  | .setFilterCode code => .ok (77 :: (pyHexUpper 8 code ++ [13]))
  | .sendCANFrame extended ident data => .ok (sendCANFrameBytes extended ident data)
  | .sendCANRequest extended ident dataLen =>
    .ok (sendCANRequestBytes extended ident dataLen)

example : serializeCmd (.sendCANFrame false 0x123 [0x44, 0x55, 0x66])
    = .ok [116, 49, 50, 51, 51, 52, 52, 53, 53, 54, 54, 13] := rfl
example : serializeCmd .getFirmwareVersion = .ok [118, 13] := rfl
example : serializeCmd (.setBaudrate (.preset 0)) = .ok [83, 48, 13] := rfl

theorem parse_from_msg_slices (extended : Bool) (c0 : Nat) (H D : List Nat)
    (ld ident L : Nat) (data : List Nat)
    (hH : H.length = identLenOf extended)
    (hdec : decode_hex H = some ident)
    (hld : hexDigitVal ld = some L)
    (hD : D.length = L * 2)
    (hpairs : decodePairs D = .ok data)
    (hidm : ident ≤ maxIdentOf extended)
    (hdl : data.length ≤ 8) :
    parse_from_msg extended (c0 :: (H ++ (ld :: (D ++ [13]))))
      = .ok (.canMsg extended ident data) := by
  have e1 : ((c0 :: (H ++ (ld :: (D ++ [13])))).drop 1).take (identLenOf extended)
      = H := by
    show (H ++ (ld :: (D ++ [13]))).take (identLenOf extended) = H
    rw [← hH, List.take_left]
  have h21 : 2 + identLenOf extended - 1 = identLenOf extended + 1 := by omega
  have e2 : ((c0 :: (H ++ (ld :: (D ++ [13])))).drop
        (2 + identLenOf extended - 1)).take 1 = [ld] := by
    rw [h21, List.drop_succ_cons, ← hH, List.drop_left]
    rfl
  have d2 : decode_hex [ld] = some L := by
    simp [decode_hex, decodeHexCore, hld]
  have e3 : (c0 :: (H ++ (ld :: (D ++ [13])))).drop (2 + identLenOf extended)
      = D ++ [13] := by
    rw [show 2 + identLenOf extended = (identLenOf extended + 1) + 1 from by omega]
    rw [List.drop_succ_cons]
    rw [show identLenOf extended + 1 = identLenOf extended + 1 from rfl]
    rw [← List.drop_drop, ← hH, List.drop_left]
    rfl
  have e4 : ((D ++ [13]).take (L * 2)) = D := by
    rw [← hD, List.take_left]
  have hmlen : (c0 :: (H ++ (ld :: (D ++ [13])))).length
      = 2 + identLenOf extended + L * 2 + 1 := by
    simp [List.length_cons, List.length_append, hH, hD]
    omega
  simp only [parse_from_msg, e1, hdec, e2, d2, e3, e4, hpairs, hmlen]
  rw [if_neg (by omega)]
  rw [if_neg (by omega)]
  rw [if_neg (by omega)]

theorem sendCANFrame_roundtrip (extended : Bool) (ident : Nat) (data : List Nat)
    (hid : ident ≤ maxIdentOf extended) (hlen : data.length ≤ 8)
    (hdata : ∀ b ∈ data, b < 256) :
    usbtinParse (sendCANFrameBytes extended ident data)
      = .ok (.canMsg extended ident data) := by
  have hw1 : 0 < identLenOf extended := by cases extended <;> decide
  have hidw : ident < 16 ^ identLenOf extended := by
    cases extended
    · have h2 : ident ≤ 0x7FF := hid
      show ident < 16 ^ 3
      norm_num
      omega
    · have h2 : ident ≤ 0x1FFFFFFF := hid
      show ident < 16 ^ 8
      norm_num
      omega
  have hHlen : (pyHexLower (identLenOf extended) ident).length = identLenOf extended :=
    pyHexLower_length _ _ hw1 hidw
  have hL : pyHexLower 1 data.length = [hexDigitLower data.length] :=
    pyHexLower_one _ (by omega)
  have hHD : (hexlify data).length = 2 * data.length := hexlify_length data hdata
  have hcore : parse_from_msg extended (sendCANFrameBytes extended ident data)
      = .ok (.canMsg extended ident data) := by
    have hshape : sendCANFrameBytes extended ident data
        = (if extended then 84 else 116)
          :: (pyHexLower (identLenOf extended) ident
              ++ (hexDigitLower data.length :: (hexlify data ++ [13]))) := by
      rw [sendCANFrameBytes, hL]
      rfl
    rw [hshape]
    exact parse_from_msg_slices extended _ _ _ _ ident data.length data hHlen
      (decode_pyHexLower _ _) (hexDigitVal_lower _ (by omega))
      (by omega) (decodePairs_hexlify data hdata) hid hlen
  cases extended
  · exact hcore
  · exact hcore

/-- State of the reader loop of USBtinThread.run (threaded.py lines 49 to
72): the accumulation buffer local to run, and the two queues can_queue
and ctrl_queue (the queue contents, in arrival order, not yet drained by
any consumer). -/
structure DState where
  buf : List Nat
  can : List UMsg
  ctrl : List UMsg
deriving DecidableEq, Repr

/-- Control outcome of one iteration of the inner while-True body of
USBtinThread.run: continue with the next read, or propagate an exception
(the source loop body contains no break and no return, so no constructor
of this type is ever produced for a normal exit). -/
inductive LoopCtl where
  | continueLoop
  | exitLoop
  | raiseExc
deriving DecidableEq, Repr

/-- One iteration of the inner while-True body of USBtinThread.run
(threaded.py lines 53 to 72). The input is the result of ser.read(1):
none for a timed-out read, some c for a byte. On timeout the source
executes continue (line 58), re-entering the inner loop; the stopped flag
(self.stopped, available to the body as a parameter here) is never read
inside the body, and the body has no break or return, so the outcome is
never exitLoop. A terminator byte (CR or BEL, line 62) parses the
accumulated buffer; a parse exception propagates (raiseExc), otherwise
the message is routed by is_can and the buffer resets. -/
def innerBody (stopped : Bool) (s : DState) (c : Option Nat) : DState × LoopCtl :=
  match c with
  | none => (s, .continueLoop)
  | some c =>
    if c = 13 ∨ c = 7 then
      match usbtinParse (s.buf ++ [c]) with
      | .error _ => ({ s with buf := s.buf ++ [c] }, .raiseExc)
      | .ok m =>
        if m.is_can then
          ({ buf := [], can := s.can ++ [m], ctrl := s.ctrl }, .continueLoop)
        else
          ({ buf := [], can := s.can, ctrl := s.ctrl ++ [m] }, .continueLoop)
    else ({ s with buf := s.buf ++ [c] }, .continueLoop)

/-- The reader loop run over a finite prefix of read results: iterate
innerBody until the inputs are exhausted (the loop is still running,
second component false) or an exception propagates (second component
true, the thread is dead and nothing further is consumed or routed). -/
def readerLoop (stopped : Bool) (s : DState) : List (Option Nat) → DState × Bool
  | [] => (s, false)
  | i :: rest =>
    match innerBody stopped s i with
    | (t, .continueLoop) => readerLoop stopped t rest
    | (t, .raiseExc) => (t, true)
    | (t, .exitLoop) => (t, false)

/-- Delimitation of a byte stream the way the reader accumulates it: buf
is the current partial buffer; each terminator byte (CR or BEL) closes a
buffer that includes the terminator. Returns the closed buffers in wire
order and the trailing partial buffer. -/
def splitOnTermAux (buf : List Nat) : List Nat → List (List Nat) × List Nat
  | [] => ([], buf)
  | c :: rest =>
    if c = 13 ∨ c = 7 then
      ((buf ++ [c]) :: (splitOnTermAux [] rest).1, (splitOnTermAux [] rest).2)
    else splitOnTermAux (buf ++ [c]) rest

/-- All buffers parse successfully, yielding the message list in order. -/
def parseAll : List (List Nat) → Option (List UMsg)
  | [] => some []
  | b :: bs =>
    match usbtinParse b with
    | .error _ => none
    | .ok m =>
      match parseAll bs with
      | none => none
      | some ms => some (m :: ms)

example :
    splitOnTermAux [] [13, 116, 49, 50, 51, 48, 13, 55]
      = ([[13], [116, 49, 50, 51, 48, 13]], [55]) := rfl
example :
    readerLoop true ⟨[], [], []⟩ [some 13, none, some 7]
      = (⟨[], [], [.okMsg, .errorMsg]⟩, false) := rfl

theorem innerBody_none (stopped : Bool) (s : DState) :
    innerBody stopped s none = (s, .continueLoop) := rfl

theorem innerBody_nonterm (stopped : Bool) (s : DState) (c : Nat)
    (h : ¬(c = 13 ∨ c = 7)) :
    innerBody stopped s (some c) = ({ s with buf := s.buf ++ [c] }, .continueLoop) := by
  simp [innerBody, h]

theorem innerBody_term_err (stopped : Bool) (s : DState) (c : Nat) (e : PyExc)
    (hterm : c = 13 ∨ c = 7) (hp : usbtinParse (s.buf ++ [c]) = .error e) :
    innerBody stopped s (some c) = ({ s with buf := s.buf ++ [c] }, .raiseExc) := by
  simp [innerBody, hterm, hp]

theorem innerBody_term_can (stopped : Bool) (s : DState) (c : Nat) (m : UMsg)
    (hterm : c = 13 ∨ c = 7) (hp : usbtinParse (s.buf ++ [c]) = .ok m)
    (hcan : m.is_can = true) :
    innerBody stopped s (some c)
      = (⟨[], s.can ++ [m], s.ctrl⟩, .continueLoop) := by
  simp [innerBody, hterm, hp, hcan]

theorem innerBody_term_ctrl (stopped : Bool) (s : DState) (c : Nat) (m : UMsg)
    (hterm : c = 13 ∨ c = 7) (hp : usbtinParse (s.buf ++ [c]) = .ok m)
    (hcan : m.is_can = false) :
    innerBody stopped s (some c)
      = (⟨[], s.can, s.ctrl ++ [m]⟩, .continueLoop) := by
  simp [innerBody, hterm, hp, hcan]

theorem readerLoop_cons_continue (stopped : Bool) (s t : DState) (i : Option Nat)
    (rest : List (Option Nat)) (h : innerBody stopped s i = (t, .continueLoop)) :
    readerLoop stopped s (i :: rest) = readerLoop stopped t rest := by
  simp [readerLoop, h]

theorem readerLoop_cons_raise (stopped : Bool) (s t : DState) (i : Option Nat)
    (rest : List (Option Nat)) (h : innerBody stopped s i = (t, .raiseExc)) :
    readerLoop stopped s (i :: rest) = (t, true) := by
  simp [readerLoop, h]

theorem readerLoop_ok : ∀ (stream buf : List Nat) (can ctrl : List UMsg)
    (stopped : Bool) (msgs : List UMsg),
    parseAll (splitOnTermAux buf stream).1 = some msgs →
    readerLoop stopped ⟨buf, can, ctrl⟩ (stream.map some)
      = (⟨(splitOnTermAux buf stream).2,
          can ++ msgs.filter (fun m => m.is_can),
          ctrl ++ msgs.filter (fun m => !m.is_can)⟩, false) := by
  intro stream
  induction stream with
  | nil =>
    intro buf can ctrl stopped msgs h
    simp only [splitOnTermAux, parseAll] at h
    have hmsgs : msgs = [] := by
      injection h with h2
      exact h2.symm
    subst hmsgs
    simp [readerLoop, splitOnTermAux]
  | cons c rest ih =>
    intro buf can ctrl stopped msgs h
    by_cases hterm : c = 13 ∨ c = 7
    · simp only [splitOnTermAux, if_pos hterm, parseAll] at h
      cases hp : usbtinParse (buf ++ [c]) with
      | error e => rw [hp] at h; simp at h
      | ok m =>
        rw [hp] at h
        cases hrest : parseAll (splitOnTermAux [] rest).1 with
        | none => rw [hrest] at h; simp at h
        | some ms =>
          rw [hrest] at h
          have hmsgs : msgs = m :: ms := by
            injection h with h2
            exact h2.symm
          subst hmsgs
          rw [List.map_cons]
          by_cases hcan : m.is_can
          · rw [readerLoop_cons_continue stopped _ _ _ _
              (innerBody_term_can stopped ⟨buf, can, ctrl⟩ c m hterm hp hcan)]
            rw [ih [] (can ++ [m]) ctrl stopped ms hrest]
            simp only [splitOnTermAux, if_pos hterm]
            simp [List.filter_cons, hcan, List.append_assoc]
          · simp only [Bool.not_eq_true] at hcan
            rw [readerLoop_cons_continue stopped _ _ _ _
              (innerBody_term_ctrl stopped ⟨buf, can, ctrl⟩ c m hterm hp hcan)]
            rw [ih [] can (ctrl ++ [m]) stopped ms hrest]
            simp only [splitOnTermAux, if_pos hterm]
            simp [List.filter_cons, hcan, List.append_assoc]
    · simp only [splitOnTermAux, if_neg hterm] at h ⊢
      rw [List.map_cons]
      rw [readerLoop_cons_continue stopped _ _ _ _
        (innerBody_nonterm stopped ⟨buf, can, ctrl⟩ c hterm)]
      exact ih (buf ++ [c]) can ctrl stopped msgs h

theorem readerLoop_fault : ∀ (stream buf : List Nat) (can ctrl : List UMsg)
    (stopped : Bool) (bufsA : List (List Nat)) (b : List Nat)
    (bufsB : List (List Nat)) (lo : List Nat) (msgs : List UMsg) (e : PyExc),
    splitOnTermAux buf stream = (bufsA ++ b :: bufsB, lo) →
    parseAll bufsA = some msgs →
    usbtinParse b = .error e →
    readerLoop stopped ⟨buf, can, ctrl⟩ (stream.map some)
      = (⟨b, can ++ msgs.filter (fun m => m.is_can),
          ctrl ++ msgs.filter (fun m => !m.is_can)⟩, true) := by
  intro stream
  induction stream with
  | nil =>
    intro buf can ctrl stopped bufsA b bufsB lo msgs e hsplit hA hb
    simp only [splitOnTermAux, Prod.mk.injEq] at hsplit
    obtain ⟨h1, _⟩ := hsplit
    exact absurd h1.symm (by simp)
  | cons c rest ih =>
    intro buf can ctrl stopped bufsA b bufsB lo msgs e hsplit hA hb
    by_cases hterm : c = 13 ∨ c = 7
    · simp only [splitOnTermAux, if_pos hterm, Prod.mk.injEq] at hsplit
      obtain ⟨h1, h2⟩ := hsplit
      cases bufsA with
      | nil =>
        simp only [List.nil_append, List.cons.injEq] at h1
        obtain ⟨hb1, _⟩ := h1
        simp only [parseAll] at hA
        have hmsgs : msgs = [] := by
          injection hA with h3
          exact h3.symm
        subst hmsgs
        rw [List.map_cons]
        rw [readerLoop_cons_raise stopped _ _ _ _
          (innerBody_term_err stopped ⟨buf, can, ctrl⟩ c e hterm (by rw [hb1]; exact hb))]
        simp [hb1]
      | cons a bufsA2 =>
        simp only [List.cons_append, List.cons.injEq] at h1
        obtain ⟨ha, hS⟩ := h1
        simp only [parseAll] at hA
        rw [← ha] at hA
        cases hp : usbtinParse (buf ++ [c]) with
        | error e2 => rw [hp] at hA; simp at hA
        | ok m =>
          rw [hp] at hA
          cases hrest : parseAll bufsA2 with
          | none => rw [hrest] at hA; simp at hA
          | some ms =>
            rw [hrest] at hA
            have hmsgs : msgs = m :: ms := by
              injection hA with h3
              exact h3.symm
            subst hmsgs
            have hsplitrest : splitOnTermAux [] rest = (bufsA2 ++ b :: bufsB, lo) := by
              rw [← hS, ← h2]
            rw [List.map_cons]
            by_cases hcan : m.is_can
            · rw [readerLoop_cons_continue stopped _ _ _ _
                (innerBody_term_can stopped ⟨buf, can, ctrl⟩ c m hterm hp hcan)]
              rw [ih [] (can ++ [m]) ctrl stopped bufsA2 b bufsB lo ms e hsplitrest hrest hb]
              simp [List.filter_cons, hcan, List.append_assoc]
            · simp only [Bool.not_eq_true] at hcan
              rw [readerLoop_cons_continue stopped _ _ _ _
                (innerBody_term_ctrl stopped ⟨buf, can, ctrl⟩ c m hterm hp hcan)]
              rw [ih [] can (ctrl ++ [m]) stopped bufsA2 b bufsB lo ms e hsplitrest hrest hb]
              simp [List.filter_cons, hcan, List.append_assoc]
    · simp only [splitOnTermAux, if_neg hterm] at hsplit
      rw [List.map_cons]
      rw [readerLoop_cons_continue stopped _ _ _ _
        (innerBody_nonterm stopped ⟨buf, can, ctrl⟩ c hterm)]
      exact ih (buf ++ [c]) can ctrl stopped bufsA b bufsB lo msgs e hsplit hA hb

/-- Failures of USBtinThread.transmit_command (threaded.py lines 74 to
85): QueueNotEmptyError when the control queue holds a message at the
check, RemoteError carrying the response when the popped message is not
ok, and the exception a command bytes method itself raises. -/
inductive TxErr where
  | queueNotEmpty
  | remoteError (response : UMsg)
  | serializationError (e : SerErr)
deriving DecidableEq, Repr

/-- Channel state visible to transmit_command: the control queue and CAN
queue contents and the bytes written to the serial stream so far. -/
structure ChanState where
  ctrlQueue : List UMsg
  canQueue : List UMsg
  written : List Nat
deriving DecidableEq, Repr

/-- USBtinThread.transmit_command (threaded.py lines 74 to 85), executed
under the send lock. The Python code raises QueueNotEmptyError when
ctrl_queue is not empty at the check; the condition here is stated
positively (proceed when empty). When the queue is empty the blocking
ctrl_queue.get() returns the next message the reader puts, modelled by
the ctrlArrival parameter; exactly that one message is consumed. If the
response is not ok (the Error message), RemoteError is raised after the
write; otherwise the response is returned. -/
def transmit_command (cmd : UCmd) (st : ChanState) (ctrlArrival : UMsg) :
    Except TxErr UMsg × ChanState :=
  if st.ctrlQueue.isEmpty then
    match serializeCmd cmd with
    | .error e => (.error (.serializationError e), st)
    | .ok bs =>
      if ctrlArrival.is_ok then
        (.ok ctrlArrival, { st with written := st.written ++ bs })
      else
        (.error (.remoteError ctrlArrival), { st with written := st.written ++ bs })
  else (.error .queueNotEmpty, st)

/-- Failure of a blocking stdlib Queue.get with a timeout: queue.Empty,
the kind detect_baudrate catches (cli.py lines 5 and 67). -/
inductive RecvFailure where
  | queueEmpty
deriving DecidableEq, Repr

/-- Modelled from the spec: USBtinThread (threaded.py) defines no
recv_can_message method, although cli.py line 64 calls
usb_tin.recv_can_message(timeout=timeout) and cli.py line 168 calls it
without a timeout; only the legacy unthreaded class in
src/usbtin/__init__.py has one, without a timeout parameter. The evident
missing implementation is Queue.get on can_queue with the given timeout:
it returns the first item available within the deadline, and raises the
stdlib queue.Empty if the queue stays empty through the deadline (which
is what Queue.get raises and what the caller catches). avail is the
sequence of items in or arriving to the CAN queue within the deadline. -/
def recv_can_message (avail : List UMsg) : Except RecvFailure UMsg :=
  match avail with
  | [] => .error .queueEmpty
  | m :: _ => .ok m

/-- The except clause of detect_baudrate (cli.py lines 67 to 68): the
only failure it catches is the stdlib queue.Empty, a generic kind shared
by every Queue consumer; the exception taxonomy of src/usbtin/exc.py
(USBtinError, MessageParsingError, UnknownMessageTypeError,
QueueNotEmptyError, RemoteError) contains no timeout kind. -/
def detectBaudrateCatches : RecvFailure → Bool
  | .queueEmpty => true

/-- Tags with a dedicated dispatch branch in USBtinMessage.parse
(protocol.py lines 14 to 36): t, T, r, R, v, V, N, F. -/
def recognizedTag (c : Nat) : Bool :=
  (c == 116) || (c == 84) || (c == 114) || (c == 82)
    || (c == 118) || (c == 86) || (c == 78) || (c == 70)

/-- After the reader thread has terminated it can put nothing further,
and it is the sole producer for both queues; the source neither closes
nor poisons a queue (threaded.py line 50 notes that run may throw,
blocking others). A consumer blocked in Queue.get therefore returns iff
the queue contents q is nonempty: on an empty queue it blocks forever. -/
def blockedConsumerHangs (q : List UMsg) : Prop := q = []

/-- Claim C1: for every byte stream whose terminated buffers all parse
(into msgs, in wire order), the reader of USBtinThread.run routes so that
the CAN queue holds exactly the is_can messages in wire order, the
control queue holds exactly the others in wire order, and the loop is
still running (no fault); no message lands in the wrong queue. -/
theorem c1_dispatch_routing (stopped : Bool) (stream : List Nat) (msgs : List UMsg)
    (h : parseAll (splitOnTermAux [] stream).1 = some msgs) :
    readerLoop stopped ⟨[], [], []⟩ (stream.map some)
      = (⟨(splitOnTermAux [] stream).2,
          msgs.filter (fun m => m.is_can),
          msgs.filter (fun m => !m.is_can)⟩, false) := by
  have h2 := readerLoop_ok stream [] [] [] stopped msgs h
  simpa using h2

theorem c1_dispatch_routing_witness :
    parseAll (splitOnTermAux [] [13, 116, 49, 50, 51, 51, 52, 52, 53, 53, 54, 54, 13]).1
      = some [.okMsg, .canMsg false 0x123 [0x44, 0x55, 0x66]]
    ∧ readerLoop false ⟨[], [], []⟩
        ([13, 116, 49, 50, 51, 51, 52, 52, 53, 53, 54, 54, 13].map some)
      = (⟨[], [.canMsg false 0x123 [0x44, 0x55, 0x66]], [.okMsg]⟩, false) := by
  constructor
  · rfl
  · exact c1_dispatch_routing false [13, 116, 49, 50, 51, 51, 52, 52, 53, 53, 54, 54, 13]
      [.okMsg, .canMsg false 0x123 [0x44, 0x55, 0x66]] rfl

/-- Claim C2: transmit_command raises QueueNotEmptyError iff the control
queue is nonempty at the lock-protected check; otherwise it writes the
serialized command bytes, consumes exactly the one response message
(leaving both queues as found, the response being the arrival that
unblocks the get), raises RemoteError iff that message is the Error
variant, and returns the message in every other case. -/
theorem c2_transmit_command (cmd : UCmd) (st : ChanState) (resp : UMsg) (bs : List Nat) :
    ((transmit_command cmd st resp).1 = .error .queueNotEmpty ↔ st.ctrlQueue ≠ [])
    ∧ (st.ctrlQueue = [] → serializeCmd cmd = .ok bs →
        ((transmit_command cmd st resp).2.written = st.written ++ bs
         ∧ (transmit_command cmd st resp).2.ctrlQueue = st.ctrlQueue
         ∧ (transmit_command cmd st resp).2.canQueue = st.canQueue
         ∧ ((transmit_command cmd st resp).1 = .error (.remoteError resp)
              ↔ resp = .errorMsg)
         ∧ (resp ≠ .errorMsg → (transmit_command cmd st resp).1 = .ok resp))) := by
  cases hq : st.ctrlQueue with
  | cons m rest =>
    have hE : st.ctrlQueue.isEmpty = false := by rw [hq]; rfl
    constructor
    · simp [transmit_command, hE, hq]
    · intro h0
      exact absurd h0 (by simp)
  | nil =>
    have hE : st.ctrlQueue.isEmpty = true := by rw [hq]; rfl
    constructor
    · have hne : ¬((transmit_command cmd st resp).1 = .error .queueNotEmpty) := by
        simp only [transmit_command, hE, if_true]
        cases hser : serializeCmd cmd with
        | error e => simp
        | ok bs2 => by_cases hok : resp.is_ok <;> simp [hok]
      exact iff_of_false hne (by simp)
    · intro _ hser
      simp only [transmit_command, hE, if_true, hser]
      by_cases hok : resp.is_ok
      · rw [if_pos hok]
        refine ⟨rfl, hq, rfl, ?_, fun _ => rfl⟩
        constructor
        · intro h2
          exact absurd h2 (by simp)
        · intro h2
          rw [h2] at hok
          exact absurd hok (by decide)
      · rw [if_neg hok]
        have hresp : resp = .errorMsg := by
          cases resp <;> first | rfl | exact absurd rfl hok
        refine ⟨rfl, hq, rfl, ?_, ?_⟩
        · exact iff_of_true rfl hresp
        · intro hne
          exact absurd hresp hne

theorem c2_transmit_command_witness :
    (transmit_command .getFirmwareVersion ⟨[], [], []⟩ .okMsg).1 = .ok .okMsg
    ∧ (transmit_command .getFirmwareVersion ⟨[], [], []⟩ .okMsg).2.written
        = [118, 13] := by
  have h := (c2_transmit_command .getFirmwareVersion ⟨[], [], []⟩ .okMsg [118, 13]).2
    rfl rfl
  exact ⟨h.2.2.2.2 (by decide), by simpa using h.1⟩

/-- Claim C3: the claim states that a requested stop is observed at the
next read timeout and the read loop then exits. In the source the inner
while-True body (threaded.py lines 53 to 72) never consults self.stopped
and contains no break or return: its control outcome is never an exit,
and on a timed-out read with the stop flag set it simply continues. The
comment at threaded.py line 56 (timeout, recheck for stop) documents the
intended behaviour that the code does not implement. -/
theorem c3_stop_never_observed :
    (∀ (stopped : Bool) (s : DState) (c : Option Nat),
      (innerBody stopped s c).2 ≠ LoopCtl.exitLoop)
    ∧ (innerBody true ⟨[], [], []⟩ none).2 = LoopCtl.continueLoop := by
  constructor
  · intro stopped s c
    cases c with
    | none => simp [innerBody]
    | some c =>
      by_cases hterm : c = 13 ∨ c = 7
      · simp only [innerBody, if_pos hterm]
        cases hp : usbtinParse (s.buf ++ [c]) with
        | error e => simp
        | ok m => by_cases hcan : m.is_can <;> simp [hcan]
      · simp [innerBody, hterm]
  · rfl

/-- Claim C4: the claim states that well-formed remote-transmission
request buffers parse into CanRequest values. In the source,
_CANBaseRequest.parse subscripts the freshly built result object instead
of the msg argument and therefore raises TypeError on every input,
wrapped as MessageParsingError: parsing the well-formed buffers r1233-CR
and R000001233-CR fails, as does every buffer with leading tag r. -/
theorem c4_request_parse_always_fails :
    usbtinParse [114, 49, 50, 51, 51, 13] = .error .typeError
    ∧ usbtinParse [82, 48, 48, 48, 48, 48, 49, 50, 51, 51, 13] = .error .typeError
    ∧ (∀ rest2 : List Nat, usbtinParse (114 :: rest2) = .error .typeError) :=
  ⟨rfl, rfl, fun _ => rfl⟩

/-- Claim C5: for every CAN frame with valid fields (ident within the
standard or extended bound, at most 8 data bytes), parsing the serialized
send-frame command reconstructs a CAN message with equal identifier and
data; and serializing the send-frame command for ident 0x123 with data
44 55 66 yields exactly the bytes t1233445566-CR. -/
theorem c5_roundtrip (extended : Bool) (ident : Nat) (data : List Nat)
    (hid : ident ≤ maxIdentOf extended) (hlen : data.length ≤ 8)
    (hdata : ∀ b ∈ data, b < 256) :
    usbtinParse (sendCANFrameBytes extended ident data)
      = .ok (.canMsg extended ident data)
    ∧ serializeCmd (.sendCANFrame false 0x123 [0x44, 0x55, 0x66])
      = .ok [116, 49, 50, 51, 51, 52, 52, 53, 53, 54, 54, 13] :=
  ⟨sendCANFrame_roundtrip extended ident data hid hlen hdata, rfl⟩

theorem c5_roundtrip_witness :
    usbtinParse (sendCANFrameBytes true 0x1ABCDEF0 [0xDE, 0xAD])
      = .ok (.canMsg true 0x1ABCDEF0 [0xDE, 0xAD]) :=
  (c5_roundtrip true 0x1ABCDEF0 [0xDE, 0xAD] (by decide) (by decide) (by decide)).1

/-- Claim C6, as amended: parse fails (always with MessageParsingError,
the ParseError wrapper) on empty input; on an unrecognized leading tag
when the buffer is not one of the exact control replies and is not
exactly 3 bytes long, the failure wrapping UnknownMessageTypeError; a
3-byte buffer with an unrecognized tag is instead handed to SingleByte
and succeeds exactly when its second byte is a hex digit (failing with a
wrapped ValueError otherwise); and a CAN frame buffer whose declared
length digit disagrees with the payload hex digit count fails. -/
theorem c6_parse_errors :
    (usbtinParse [] = .error .indexError)
    ∧ (∀ (c : Nat) (rest2 : List Nat),
        recognizedTag c = false →
        c :: rest2 ≠ [122, 13] → c :: rest2 ≠ [90, 13] →
        c :: rest2 ≠ [13] → c :: rest2 ≠ [7] →
        (c :: rest2).length ≠ 3 →
        usbtinParse (c :: rest2) = .error .unknownMessageType)
    ∧ (∀ (a b2 b3 v : Nat), recognizedTag a = false → decode_hex [b2] = some v →
        usbtinParse [a, b2, b3] = .ok (.singleByteMsg v))
    ∧ (∀ (a b2 b3 : Nat), recognizedTag a = false → decode_hex [b2] = none →
        usbtinParse [a, b2, b3] = .error .valueError)
    ∧ (∀ (id3 : List Nat) (ld ident L : Nat) (payload : List Nat),
        id3.length = 3 → decode_hex id3 = some ident → hexDigitVal ld = some L →
        payload.length ≠ 2 * L →
        usbtinParse (116 :: (id3 ++ (ld :: (payload ++ [13]))))
          = .error .messageParsing) := by
  refine ⟨rfl, ?_, ?_, ?_, ?_⟩
  · intro c rest2 hrec hz hZ hcr hbel hlen3
    simp only [recognizedTag, Bool.or_eq_false_iff, beq_eq_false_iff_ne, ne_eq] at hrec
    obtain ⟨⟨⟨⟨⟨⟨⟨h1, h2⟩, h3⟩, h4⟩, h5⟩, h6⟩, h7⟩, h8⟩ := hrec
    simp only [usbtinParse]
    rw [if_neg h1, if_neg h2, if_neg h3, if_neg h4,
      if_neg (not_or.mpr ⟨hz, hZ⟩), if_neg hcr, if_neg hbel,
      if_neg h5, if_neg h6, if_neg h7, if_neg h8, if_neg hlen3]
  · intro a b2 b3 v hrec hd
    simp only [recognizedTag, Bool.or_eq_false_iff, beq_eq_false_iff_ne, ne_eq] at hrec
    obtain ⟨⟨⟨⟨⟨⟨⟨h1, h2⟩, h3⟩, h4⟩, h5⟩, h6⟩, h7⟩, h8⟩ := hrec
    simp only [usbtinParse]
    rw [if_neg h1, if_neg h2, if_neg h3, if_neg h4,
      if_neg (show ¬(([a, b2, b3] : List Nat) = [122, 13]
        ∨ ([a, b2, b3] : List Nat) = [90, 13]) from by simp),
      if_neg (show ([a, b2, b3] : List Nat) ≠ [13] from by simp),
      if_neg (show ([a, b2, b3] : List Nat) ≠ [7] from by simp),
      if_neg h5, if_neg h6, if_neg h7, if_neg h8,
      if_pos (show ([a, b2, b3] : List Nat).length = 3 from rfl)]
    simp only [singleByteParse]
    rw [show (([a, b2, b3] : List Nat).drop 1).take 1 = [b2] from rfl, hd]
  · intro a b2 b3 hrec hd
    simp only [recognizedTag, Bool.or_eq_false_iff, beq_eq_false_iff_ne, ne_eq] at hrec
    obtain ⟨⟨⟨⟨⟨⟨⟨h1, h2⟩, h3⟩, h4⟩, h5⟩, h6⟩, h7⟩, h8⟩ := hrec
    simp only [usbtinParse]
    rw [if_neg h1, if_neg h2, if_neg h3, if_neg h4,
      if_neg (show ¬(([a, b2, b3] : List Nat) = [122, 13]
        ∨ ([a, b2, b3] : List Nat) = [90, 13]) from by simp),
      if_neg (show ([a, b2, b3] : List Nat) ≠ [13] from by simp),
      if_neg (show ([a, b2, b3] : List Nat) ≠ [7] from by simp),
      if_neg h5, if_neg h6, if_neg h7, if_neg h8,
      if_pos (show ([a, b2, b3] : List Nat).length = 3 from rfl)]
    simp only [singleByteParse]
    rw [show (([a, b2, b3] : List Nat).drop 1).take 1 = [b2] from rfl, hd]
  · intro id3 ld ident L payload h3 hdec hld hpl
    have hil : identLenOf false = 3 := rfl
    have e1 : ((116 :: (id3 ++ (ld :: (payload ++ [13])))).drop 1).take
        (identLenOf false) = id3 := by
      show (id3 ++ (ld :: (payload ++ [13]))).take 3 = id3
      rw [← h3, List.take_left]
    have e2 : ((116 :: (id3 ++ (ld :: (payload ++ [13])))).drop
        (2 + identLenOf false - 1)).take 1 = [ld] := by
      show ((id3 ++ (ld :: (payload ++ [13]))).drop 3).take 1 = [ld]
      rw [← h3, List.drop_left]
      rfl
    have d2 : decode_hex [ld] = some L := by
      simp [decode_hex, decodeHexCore, hld]
    have e3 : (116 :: (id3 ++ (ld :: (payload ++ [13])))).length
        = payload.length + identLenOf false + 3 := by
      rw [hil]
      simp only [List.length_cons, List.length_append, List.length_nil, h3]
      omega
    show parse_from_msg false (116 :: (id3 ++ (ld :: (payload ++ [13]))))
      = .error .messageParsing
    simp only [parse_from_msg, e1, hdec, e2, d2, e3]
    rw [if_pos (by omega)]

/-- Claim C6, counterexample to the claim as stated: the buffer 0 4 CR
has an unrecognized leading tag byte (the zero character), yet parse does
not fail: it returns SingleByte 4 through the 3-byte fallback branch. -/
theorem c6_counterexample :
    recognizedTag 48 = false ∧ usbtinParse [48, 52, 13] = .ok (.singleByteMsg 4) :=
  ⟨rfl, rfl⟩

theorem c6_parse_errors_witness :
    usbtinParse [113, 13] = .error .unknownMessageType
    ∧ usbtinParse [116, 49, 50, 51, 51, 52, 52, 13] = .error .messageParsing
    ∧ usbtinParse [48, 120, 13] = .error .valueError := by
  refine ⟨?_, ?_, ?_⟩
  · exact c6_parse_errors.2.1 113 [13] rfl (by decide) (by decide) (by decide)
      (by decide) (by decide)
  · exact c6_parse_errors.2.2.2.2 [49, 50, 51] 51 0x123 3 [52, 52] rfl rfl rfl
      (by decide)
  · exact c6_parse_errors.2.2.2.1 48 120 13 rfl rfl

/-- Claim C7: the claim states the four error-flag booleans come from
bits 5, 4, 2 and 0 of the hex-decoded flag byte. The source instead
tests those bits of the raw ASCII byte at index 1 (the first hex digit
character). On the buffer F 0 1 CR the hex-decoded flag byte is 1, whose
bit 0 is set and bit 5 clear, so the claim demands bus true and
early-warning false; the code takes the raw byte 48 and returns
early-warning true, overrun true, passive false, bus false. -/
theorem c7_error_flags_raw_byte :
    usbtinParse [70, 48, 49, 13] = .ok (.errorFlagsMsg true true false false)
    ∧ decode_hex [48, 49] = some 1
    ∧ Nat.testBit 1 5 = false ∧ Nat.testBit 1 0 = true :=
  ⟨rfl, rfl, by decide, by decide⟩

/-- Claim C8, counterexample to the claim as stated: feeding the reader
the stream q CR makes the parse fail (unknown tag), the loop dies with
the exception, and both queues are left empty and neither closed nor
poisoned, so a consumer blocked on either queue hangs forever. -/
theorem c8_counterexample :
    (readerLoop false ⟨[], [], []⟩ ([113, 13].map some)).2 = true
    ∧ blockedConsumerHangs (readerLoop false ⟨[], [], []⟩ ([113, 13].map some)).1.can
    ∧ blockedConsumerHangs (readerLoop false ⟨[], [], []⟩ ([113, 13].map some)).1.ctrl :=
  ⟨rfl, rfl, rfl⟩

/-- Claim C8, as amended: a parse failure is fatal to the reader: the
loop terminates at the first buffer that fails to parse, with exactly the
messages of the earlier buffers routed and nothing pushed afterwards,
and the exception propagates out of run. The queues are not closed or
poisoned, so a consumer blocked on a queue that is empty at the fault
hangs forever. -/
theorem c8_reader_fault (stopped : Bool) (stream : List Nat)
    (bufsA : List (List Nat)) (b : List Nat) (bufsB : List (List Nat))
    (lo : List Nat) (msgs : List UMsg) (e : PyExc)
    (hsplit : splitOnTermAux [] stream = (bufsA ++ b :: bufsB, lo))
    (hA : parseAll bufsA = some msgs)
    (hb : usbtinParse b = .error e) :
    readerLoop stopped ⟨[], [], []⟩ (stream.map some)
      = (⟨b, msgs.filter (fun m => m.is_can), msgs.filter (fun m => !m.is_can)⟩, true)
    ∧ (msgs.filter (fun m => !m.is_can) = []
        → blockedConsumerHangs (readerLoop stopped ⟨[], [], []⟩ (stream.map some)).1.ctrl)
    ∧ (msgs.filter (fun m => m.is_can) = []
        → blockedConsumerHangs (readerLoop stopped ⟨[], [], []⟩ (stream.map some)).1.can) := by
  have h := readerLoop_fault stream [] [] [] stopped bufsA b bufsB lo msgs e hsplit hA hb
  have h2 : readerLoop stopped ⟨[], [], []⟩ (stream.map some)
      = (⟨b, msgs.filter (fun m => m.is_can), msgs.filter (fun m => !m.is_can)⟩, true) := by
    simpa using h
  refine ⟨h2, ?_, ?_⟩
  · intro hq
    rw [h2]
    exact hq
  · intro hq
    rw [h2]
    exact hq

theorem c8_reader_fault_witness :
    readerLoop false ⟨[], [], []⟩ ([13, 113, 13].map some)
      = (⟨[113, 13], [], [.okMsg]⟩, true) := by
  have h := (c8_reader_fault false [13, 113, 13] [[13]] [113, 13] [] [] [.okMsg]
    .unknownMessageType rfl rfl rfl).1
  exact h

/-- Claim C9, as amended: the blocking CAN receive on an empty queue with
no arrival within the deadline fails with the generic stdlib queue.Empty
kind, the one the detect_baudrate caller catches; it succeeds with the
first available item otherwise. The repository defines no distinct
TimeoutError kind. -/
theorem c9_recv_empty_generic (avail : List UMsg) :
    (recv_can_message avail = .error .queueEmpty ↔ avail = [])
    ∧ (∀ e, recv_can_message avail = .error e → detectBaudrateCatches e = true) := by
  cases avail with
  | nil =>
    exact ⟨by simp [recv_can_message], fun e _ => by cases e; rfl⟩
  | cons m rest =>
    constructor
    · simp [recv_can_message]
    · intro e h
      simp [recv_can_message] at h

/-- Claim C9, counterexample to the claim as stated: the timeout failure
of the CAN receive is the generic queue.Empty kind caught by
detect_baudrate, not a distinct repository-defined TimeoutError. -/
theorem c9_counterexample :
    recv_can_message [] = .error .queueEmpty
    ∧ detectBaudrateCatches .queueEmpty = true :=
  ⟨rfl, rfl⟩

theorem c9_recv_witness :
    recv_can_message ([] : List UMsg) = .error RecvFailure.queueEmpty
    ∧ detectBaudrateCatches RecvFailure.queueEmpty = true := by
  refine ⟨(c9_recv_empty_generic []).1.mpr rfl, ?_⟩
  exact (c9_recv_empty_generic []).2 RecvFailure.queueEmpty
    ((c9_recv_empty_generic []).1.mpr rfl)

/-- Claim C10: whenever transmit_command raises QueueNotEmptyError, the
channel state is untouched: no bytes written, both queues as before (the
precondition check happens before the write and before any get). -/
theorem c10_precheck_no_side_effect (cmd : UCmd) (st : ChanState) (resp : UMsg)
    (h : (transmit_command cmd st resp).1 = .error .queueNotEmpty) :
    (transmit_command cmd st resp).2 = st := by
  cases hq : st.ctrlQueue.isEmpty
  case false => simp [transmit_command, hq]
  case true =>
    exfalso
    simp only [transmit_command, hq, if_true] at h
    cases hser : serializeCmd cmd with
    | error e => rw [hser] at h; simp at h
    | ok bs =>
      rw [hser] at h
      by_cases hok : resp.is_ok <;> simp [hok] at h

theorem c10_precheck_witness :
    (transmit_command .getFirmwareVersion ⟨[.okMsg], [], []⟩ .okMsg).1
      = .error .queueNotEmpty
    ∧ (transmit_command .getFirmwareVersion ⟨[.okMsg], [], []⟩ .okMsg).2
      = ⟨[.okMsg], [], []⟩ :=
  ⟨rfl, c10_precheck_no_side_effect .getFirmwareVersion ⟨[.okMsg], [], []⟩ .okMsg rfl⟩
